import Mathlib

/-!
Shallow embedding of the listener dispatch subsystem of
`src/robot/output/listeners.py`: guarded listener-method calls with the
process-wide reentrancy flag (`ListenerMethod`), snake/camel/underscore
method resolution (`ListenerFacade._get_method`), the v3 facade's
specialized-keyword fallback, the dispatch bus (`Listeners`), the scoped
registration stack (`LibraryListeners`), API-version validation and
listener import, and the v2 facade's message-attribute synthesis.
-/

/-- Opaque engine-side argument object (`data`, `implementation`, `result`,
message objects, ...).  The subsystem only passes these through, so identity
is all that matters. -/
structure Arg where
  id : Nat
deriving Repr, DecidableEq

/-- Kind of exception a raw listener callable can raise: the designated
`TimeoutError` (re-raised by `ListenerMethod.__call__`) or any other
exception, carrying the error message `get_error_details` would report. -/
inductive ExcKind where
  | timeout
  | other (msg : String)
deriving Repr, DecidableEq

/-- Observable record of one actual invocation of a raw listener callable:
the callable's `__name__`, the owning listener's display name, and the
arguments it received. -/
structure CallRecord where
  method : String
  listener : String
  args : List Arg
deriving Repr, DecidableEq

/-- Observable outcome of running listener-side code: the raw-callable
invocations that actually happened (in order), the messages passed to
`LOGGER.error`, and the exception escaping to the caller, if any. -/
structure RunOut where
  trace : List CallRecord
  errors : List String
  exc : Option ExcKind
deriving Repr, DecidableEq

def RunOut.empty : RunOut := ⟨[], [], none⟩

/-- Body of a raw listener callable: a straight-line script that may invoke
further guarded listener methods (the source of possible re-entry) and may
end by raising an exception.  `callNone` is a nested guarded call whose
wrapped callable is absent; `callSome` one whose wrapped callable is
present, with its own body. -/
inductive Body where
  | done
  | raiseExc (k : ExcKind)
  | callNone (listenerName : String) (args : List Arg) (rest : Body)
  | callSome (methodName : String) (inner : Body) (listenerName : String)
      (args : List Arg) (rest : Body)
deriving Repr, DecidableEq

/-- A present raw listener callable: its `__name__` and its behaviour. -/
structure RawMethod where
  name : String
  body : Body
deriving Repr, DecidableEq

/-- `ListenerMethod`: wraps a possibly absent raw callable plus the
owning listener's display name. -/
structure ListenerMethod where
  method : Option RawMethod
  listener_name : String
deriving Repr, DecidableEq

/-- The message `ListenerMethod.__call__` passes to `LOGGER.error` when the
wrapped callable raises a non-timeout exception. -/
def errMsg (methodName listenerName message : String) : String :=
  "Calling method \x27" ++ methodName ++ "\x27 of listener \x27" ++
    listenerName ++ "\x27 failed: " ++ message

mutual

/-- Runs a callable body, threading the process-wide `ListenerMethod.called`
flag.  An exception raised by a step aborts the remaining steps and
propagates. -/
def runBody : Body → Bool → Bool × RunOut
  | .done, called => (called, RunOut.empty)
  | .raiseExc k, called => (called, ⟨[], [], some k⟩)
  | .callNone _ _ rest, called =>
      -- `if self.method is None: return`
      runBody rest called
  | .callSome methodName inner listenerName args rest, called =>
      match guardedRun methodName inner listenerName args called with
      | (c1, r1) =>
        match r1.exc with
        | some k => (c1, ⟨r1.trace, r1.errors, some k⟩)
        | none =>
          match runBody rest c1 with
          | (c2, r2) => (c2, ⟨r1.trace ++ r2.trace, r1.errors ++ r2.errors, r2.exc⟩)
termination_by b _ => (sizeOf b, 0)

/-- `ListenerMethod.__call__` for a present wrapped callable: drop the call
if the process-wide flag is set; otherwise set the flag, invoke the
callable, re-raise `TimeoutError` unmodified, swallow and log every other
exception, and clear the flag on every exit path (`finally`). -/
def guardedRun (methodName : String) (body : Body) (listenerName : String)
    (args : List Arg) (called : Bool) : Bool × RunOut :=
  if called then (called, RunOut.empty)  -- `if self.called: return`
  else
    match runBody body true with         -- `ListenerMethod.called = True; self.method(*args)`
    | (_, r) =>
      match r.exc with
      | some ExcKind.timeout =>          -- `except TimeoutError: raise`
          (false, ⟨⟨methodName, listenerName, args⟩ :: r.trace, r.errors, some ExcKind.timeout⟩)
      | some (ExcKind.other msg) =>      -- `except Exception:` log and continue
          (false, ⟨⟨methodName, listenerName, args⟩ :: r.trace,
                   r.errors ++ [errMsg methodName listenerName msg], none⟩)
      | none =>
          (false, ⟨⟨methodName, listenerName, args⟩ :: r.trace, r.errors, none⟩)
termination_by (sizeOf body, 1)

end

/-- `ListenerMethod.__call__`: no-op when the wrapped callable is absent,
otherwise the guarded invocation above. -/
def ListenerMethod.call (self : ListenerMethod) (args : List Arg)
    (called : Bool) : Bool × RunOut :=
  match self.method with
  | none => (called, RunOut.empty)
  | some m => guardedRun m.name m.body self.listener_name args called

/-- `ListenerMethod.__bool__`: truthy iff the wrapped callable is present. -/
def ListenerMethod.toBool (self : ListenerMethod) : Bool :=
  self.method.isSome

/-- The exception a body raises when executed while the reentrancy flag is
set: nested guarded calls are dropped, so only the body's own `raise`
matters. -/
def directExc : Body → Option ExcKind
  | .done => none
  | .raiseExc k => some k
  | .callNone _ _ rest => directExc rest
  | .callSome _ _ _ _ rest => directExc rest

/-- A guarded call whose wrapped callable (when present) does not raise the
timeout exception. -/
def noDirectTimeout (lm : ListenerMethod) : Bool :=
  match lm.method with
  | none => true
  | some m => directExc m.body ≠ some ExcKind.timeout

theorem runBody_true (b : Body) : runBody b true = (true, ⟨[], [], directExc b⟩) := by
  induction b with
  | done => simp [runBody, directExc, RunOut.empty]
  | raiseExc k => simp [runBody, directExc]
  | callNone n a rest ih => simpa [runBody, directExc] using ih
  | callSome mn inner ln a rest ih_inner ih_rest =>
      rw [runBody, guardedRun]
      simp [directExc, RunOut.empty, ih_rest]

theorem guardedRun_false (methodName : String) (body : Body) (listenerName : String)
    (args : List Arg) :
    guardedRun methodName body listenerName args false =
      match directExc body with
      | some ExcKind.timeout =>
          (false, ⟨[⟨methodName, listenerName, args⟩], [], some ExcKind.timeout⟩)
      | some (ExcKind.other msg) =>
          (false, ⟨[⟨methodName, listenerName, args⟩],
                   [errMsg methodName listenerName msg], none⟩)
      | none => (false, ⟨[⟨methodName, listenerName, args⟩], [], none⟩) := by
  rw [guardedRun, runBody_true]
  cases h : directExc body with
  | none => simp [h]
  | some k => cases k <;> simp [h]

/-- Characterization of `ListenerMethod.call` starting from a clear flag:
the wrapped callable (when present) is invoked exactly once with the given
arguments, nested guarded calls inside its body are dropped, the flag ends
clear, and only a timeout escapes. -/
theorem ListenerMethod.call_false (lm : ListenerMethod) (args : List Arg)
    (m : RawMethod) (hm : lm.method = some m) :
    lm.call args false =
      match directExc m.body with
      | some ExcKind.timeout =>
          (false, ⟨[⟨m.name, lm.listener_name, args⟩], [], some ExcKind.timeout⟩)
      | some (ExcKind.other msg) =>
          (false, ⟨[⟨m.name, lm.listener_name, args⟩],
                   [errMsg m.name lm.listener_name msg], none⟩)
      | none => (false, ⟨[⟨m.name, lm.listener_name, args⟩], [], none⟩) := by
  rw [ListenerMethod.call, hm]
  exact guardedRun_false m.name m.body lm.listener_name args

theorem ListenerMethod.call_flag_clear (lm : ListenerMethod) (args : List Arg) :
    (lm.call args false).1 = false := by
  cases hm : lm.method with
  | none => simp [ListenerMethod.call, hm]
  | some m => rw [lm.call_false args m hm]; cases h : directExc m.body with
              | none => simp
              | some k => cases k <;> simp

theorem ListenerMethod.call_exc_of_noDirectTimeout (lm : ListenerMethod)
    (args : List Arg) (h : noDirectTimeout lm = true) :
    (lm.call args false).2.exc = none := by
  cases hm : lm.method with
  | none => simp [ListenerMethod.call, hm, RunOut.empty]
  | some m =>
      simp only [noDirectTimeout, hm, ne_eq, decide_not, Bool.not_eq_eq_eq_not,
        Bool.not_true, decide_eq_false_iff_not] at h
      rw [lm.call_false args m hm]
      cases hd : directExc m.body with
      | none => simp
      | some k => cases k with
        | timeout => exact absurd hd h
        | other msg => simp

/-! ## Method resolution (`ListenerFacade._get_method` and helpers) -/

/-- A raw listener object, modelled as its attribute table: attribute name
to present callable.  `getattr(listener, n, None)` is association lookup. -/
abbrev RawListener := List (String × RawMethod)

/-- `getattr(self.listener, method_name, None)` restricted to callables. -/
def getattrOpt (listener : RawListener) (attr : String) : Option RawMethod :=
  (List.find? (fun p => p.1 = attr) listener).map Prod.snd

/-- Python's `str.split(sep)` for a single-character separator, on the
character list of the string.  Never returns an empty list. -/
def splitChar (sep : Char) : List Char → List (List Char)
  | [] => [[]]
  | c :: cs =>
      match splitChar sep cs with
      | [] => [[c]]
      | h :: t => if c = sep then [] :: h :: t else (c :: h) :: t

/-- Python's `str.capitalize`: first character uppercased, the rest
lowercased. -/
def capitalizeChars : List Char → List Char
  | [] => []
  | c :: cs => c.toUpper :: cs.map Char.toLower

/-- `ListenerFacade._to_camelCase`: split on underscores, keep the first
part, capitalize the rest, join. -/
def toCamelCase (name : String) : String :=
  match splitChar '_' name.data with
  | [] => String.mk []
  | first :: rest => String.mk (first ++ (rest.map capitalizeChars).flatten)

/-- Python's `'_' in name`. -/
def containsChar (c : Char) (s : String) : Bool :=
  s.data.contains c

/-- Declared listener API generation, fixed at facade construction. -/
inductive FacadeKind where
  | v2
  | v3
deriving Repr, DecidableEq

/-- `ListenerFacade`: raw listener, display name, and (for library-scoped
listeners) the owning library, modelled by its identity. -/
structure ListenerFacade where
  kind : FacadeKind
  listener : RawListener
  name : String
  library : Option Nat
deriving Repr, DecidableEq

/-- `ListenerFacade._get_method_names`: the ordered candidate spellings for
one canonical snake-case event name. -/
def getMethodNames (library : Option Nat) (name : String) : List String :=
  let names := if containsChar '_' name then [name, toCamelCase name] else [name]
  if library.isSome then names ++ names.map (fun n => "_" ++ n) else names

/-- `ListenerFacade._get_method`: first attribute found among the candidate
names wins; with no candidate present the Guarded Call wraps an absent
callable. -/
def ListenerFacade.getMethod (f : ListenerFacade) (name : String) : ListenerMethod :=
  match (getMethodNames f.library name).findSome? (getattrOpt f.listener) with
  | some m => ⟨some m, f.name⟩
  | none => ⟨none, f.name⟩

/-- Facade `close`: both generations resolve the `close` hook through
`_get_method` and invoke it with no arguments. -/
def ListenerFacade.close (f : ListenerFacade) (called : Bool) : Bool × RunOut :=
  (f.getMethod "close").call [] called

/-! ## Current-generation facade: specialized keyword pairs
(`ListenerV3Facade.start_user_keyword` etc.).  The source binds each
specialized pair's Guarded Call once at construction; resolution is pure,
so the bound call is `getMethod` of the corresponding name. -/

def ListenerV3Facade.startUserKeyword (f : ListenerFacade) (data impl result : Arg)
    (called : Bool) : Bool × RunOut :=
  if (f.getMethod "start_user_keyword").toBool then
    (f.getMethod "start_user_keyword").call [data, impl, result] called
  else
    (f.getMethod "start_keyword").call [data, result] called

def ListenerV3Facade.endUserKeyword (f : ListenerFacade) (data impl result : Arg)
    (called : Bool) : Bool × RunOut :=
  if (f.getMethod "end_user_keyword").toBool then
    (f.getMethod "end_user_keyword").call [data, impl, result] called
  else
    (f.getMethod "end_keyword").call [data, result] called

def ListenerV3Facade.startLibraryKeyword (f : ListenerFacade) (data impl result : Arg)
    (called : Bool) : Bool × RunOut :=
  if (f.getMethod "start_library_keyword").toBool then
    (f.getMethod "start_library_keyword").call [data, impl, result] called
  else
    (f.getMethod "start_keyword").call [data, result] called

def ListenerV3Facade.endLibraryKeyword (f : ListenerFacade) (data impl result : Arg)
    (called : Bool) : Bool × RunOut :=
  if (f.getMethod "end_library_keyword").toBool then
    (f.getMethod "end_library_keyword").call [data, impl, result] called
  else
    (f.getMethod "end_keyword").call [data, result] called

def ListenerV3Facade.startInvalidKeyword (f : ListenerFacade) (data impl result : Arg)
    (called : Bool) : Bool × RunOut :=
  if (f.getMethod "start_invalid_keyword").toBool then
    (f.getMethod "start_invalid_keyword").call [data, impl, result] called
  else
    (f.getMethod "start_keyword").call [data, result] called

def ListenerV3Facade.endInvalidKeyword (f : ListenerFacade) (data impl result : Arg)
    (called : Bool) : Bool × RunOut :=
  if (f.getMethod "end_invalid_keyword").toBool then
    (f.getMethod "end_invalid_keyword").call [data, impl, result] called
  else
    (f.getMethod "end_keyword").call [data, result] called

/-- Shape of each specialized-pair public method of the v3 facade: a
present specialized hook is invoked with `(data, implementation, result)`;
an absent one forwards to the generic pair's Guarded Call with the same
`data` and `result`, so a listener implementing the generic hook still
receives the notification. -/
def forwardsToGeneric (specName genName : String)
    (publicMethod : ListenerFacade → Arg → Arg → Arg → Bool → Bool × RunOut) : Prop :=
  ∀ (f : ListenerFacade) (data impl result : Arg) (called : Bool),
    (∀ m, (f.getMethod specName).method = some m →
        publicMethod f data impl result called =
          (f.getMethod specName).call [data, impl, result] called) ∧
    ((f.getMethod specName).method = none →
        publicMethod f data impl result called =
          (f.getMethod genName).call [data, result] called) ∧
    ((f.getMethod specName).method = none → called = false →
        ∀ g, (f.getMethod genName).method = some g →
          (publicMethod f data impl result called).2.trace =
            [⟨g.name, f.name, [data, result]⟩])

/-! ## Dispatch bus (`Listeners`) -/

/-- One fan-out loop of `Listeners` (`for listener in self.listeners:
listener.event(*args)`): each facade's same-named bound Guarded Call is
invoked in registration order with the arguments unchanged, threading the
process-wide flag; an escaping exception (only a timeout can escape a
Guarded Call) aborts the loop and propagates. -/
def Listeners.dispatch (ls : List ListenerFacade) (event : String)
    (args : List Arg) (called : Bool) : Bool × RunOut :=
  match ls with
  | [] => (called, RunOut.empty)
  | f :: rest =>
      match (f.getMethod event).call args called with
      | (c1, r1) =>
        match r1.exc with
        | some k => (c1, ⟨r1.trace, r1.errors, some k⟩)
        | none =>
          match Listeners.dispatch rest event args c1 with
          | (c2, r2) => (c2, ⟨r1.trace ++ r2.trace, r1.errors ++ r2.errors, r2.exc⟩)

/-- `Listeners.__bool__`: `bool(self.listeners)`. -/
def Listeners.toBool (ls : List ListenerFacade) : Bool :=
  !ls.isEmpty

/-! ## Scoped registration stack (`LibraryListeners`).  The Python list of
scope frames grows at its end and is read at index `-1`; the model keeps
the most recently pushed frame at the head, so append/pop/`[-1]` become
cons/tail/head. -/

/-- `LibraryListeners.listeners`: the top frame, or `[]` when no frame has
been pushed (`self._listeners[-1] if self._listeners else []`). -/
def LibraryListeners.listeners (stack : List (List ListenerFacade)) :
    List ListenerFacade :=
  match stack with
  | [] => []
  | top :: _ => top

/-- `LibraryListeners.new_suite_scope`: push a fresh empty frame. -/
def LibraryListeners.newSuiteScope (stack : List (List ListenerFacade)) :
    List (List ListenerFacade) :=
  [] :: stack

/-- `LibraryListeners.discard_suite_scope`: pop the top frame. -/
def LibraryListeners.discardSuiteScope (stack : List (List ListenerFacade)) :
    List (List ListenerFacade) :=
  stack.tail

/-- Body of the `unregister` loop over the top frame: keep facades whose
owning library is not identical to the given one; when `close` is set,
invoke each removed facade's close hook.  An exception escaping a close
call (only a timeout can) aborts the loop. -/
def unregLoop (frame : List ListenerFacade) (library : Nat) (close : Bool)
    (called : Bool) : List ListenerFacade × Bool × RunOut :=
  match frame with
  | [] => ([], called, RunOut.empty)
  | f :: rest =>
      if f.library ≠ some library then
        match unregLoop rest library close called with
        | (rem, c, r) => (f :: rem, c, r)
      else if close then
        match f.close called with
        | (c1, r1) =>
          match r1.exc with
          | some k => ([], c1, ⟨r1.trace, r1.errors, some k⟩)
          | none =>
            match unregLoop rest library close c1 with
            | (rem, c2, r2) =>
              (rem, c2, ⟨r1.trace ++ r2.trace, r1.errors ++ r2.errors, r2.exc⟩)
      else
        unregLoop rest library close called

/-- `LibraryListeners.unregister`: rebuild the top frame from the survivors
of the loop above.  `none` models the `IndexError` on an empty frame stack;
if a close call raises, the exception propagates before the frame is
updated. -/
def LibraryListeners.unregister (stack : List (List ListenerFacade))
    (library : Nat) (close : Bool) (called : Bool) :
    Option (List (List ListenerFacade) × Bool × RunOut) :=
  match stack with
  | [] => none
  | top :: rest =>
      match unregLoop top library close called with
      | (remaining, c, r) =>
        match r.exc with
        | some _ => some (top :: rest, c, r)
        | none => some (remaining :: rest, c, r)

/-! ## API version validation and listener import
(`Listeners._get_version`, `_import_listener`, `_import_listeners`) -/

/-- A Python value that can appear as `ROBOT_LISTENER_API_VERSION`: an
integer, a string (which `int()` may parse), or any other value on which
`int()` raises.  `repX` is how the value renders inside the f-string of
the error message. -/
inductive PyValue where
  | int (n : Int)
  | str (s : String)
  | other (repX : String)
deriving Repr, DecidableEq

/-- Python's `int()` applied to a string: optional surrounding whitespace,
optional sign, decimal digits. -/
def pyIntOfString (s : String) : Option Int :=
  let t := s.trim
  if t.startsWith "+" then ((t.drop 1).toNat?).map Int.ofNat
  else t.toInt?

/-- Python's `int()` coercion as used by `_get_version`: `None` on
`ValueError`/`TypeError`. -/
def pyToInt : PyValue → Option Int
  | .int n => some n
  | .str s => pyIntOfString s
  | .other _ => none

/-- Rendering of the value inside the error f-string. -/
def reprValue : PyValue → String
  | .int n => toString n
  | .str s => s
  | .other r => r

/-- The `DataError` message of `_get_version`. -/
def unsupportedMsg (v : PyValue) : String :=
  "Unsupported API version \x27" ++ reprValue v ++ "\x27."

/-- `Listeners._get_version`: read the declared attribute (default `3`),
coerce with `int()`, require the result to be 2 or 3; on a failed coercion
or any other value raise `DataError`.  Note the f-string sees the already
coerced integer when only the 2-or-3 check fails. -/
def getVersion (attr : Option PyValue) : Except String Int :=
  let version := attr.getD (PyValue.int 3)
  match pyToInt version with
  | some v => if v = 2 ∨ v = 3 then Except.ok v
              else Except.error (unsupportedMsg (PyValue.int v))
  | none => Except.error (unsupportedMsg version)

/-- One entry of the listener sequence handed to `_import_listeners`:
either a listener whose import succeeds, carrying its display name, raw
attribute table and declared API version attribute, or one whose import
itself raises `DataError`. -/
inductive ListenerSource where
  | good (name : String) (raw : RawListener) (version : Option PyValue)
  | bad (name : String) (err : String)
deriving Repr, DecidableEq

/-- The display name used in the `Taking listener ... into use failed`
message. -/
def sourceName : ListenerSource → String
  | .good n _ _ => n
  | .bad n _ => n

/-- `Listeners._import_listener`: import (or fail), validate the declared
version, and build the facade of the matching generation. -/
def importOne (src : ListenerSource) (library : Option Nat) :
    Except String ListenerFacade :=
  match src with
  | .bad _ err => Except.error err
  | .good name raw version =>
      match getVersion version with
      | Except.error m => Except.error m
      | Except.ok v =>
          if v = 2 then Except.ok ⟨FacadeKind.v2, raw, name, library⟩
          else Except.ok ⟨FacadeKind.v3, raw, name, library⟩

/-- The message wrapped around an import/version failure. -/
def takingMsg (name err : String) : String :=
  "Taking listener \x27" ++ name ++ "\x27 into use failed: " ++ err

/-- `Listeners._import_listeners`: on a `DataError`, re-raise the wrapped
message when importing for a library, otherwise log it (`LOGGER.error`)
and omit the listener; successfully imported listeners are collected in
order.  The result pairs the imported facades with the logged messages. -/
def importListeners (sources : List ListenerSource) (library : Option Nat) :
    Except String (List ListenerFacade × List String) :=
  match sources with
  | [] => Except.ok ([], [])
  | s :: rest =>
      match importOne s library with
      | Except.error err =>
          let msg := takingMsg (sourceName s) err
          if library.isSome then Except.error msg
          else
            match importListeners rest library with
            | Except.error e => Except.error e
            | Except.ok (fs, logs) => Except.ok (fs, msg :: logs)
      | Except.ok f =>
          match importListeners rest library with
          | Except.error e => Except.error e
          | Except.ok (fs, logs) => Except.ok (f :: fs, logs)

/-- The log entry `_import_listeners` produces for one source, if any. -/
def importErrLog (src : ListenerSource) (library : Option Nat) : Option String :=
  match importOne src library with
  | Except.error err => some (takingMsg (sourceName src) err)
  | Except.ok _ => none

/-! ## Legacy facade message attributes (`ListenerV2Facade._message_attributes`) -/

/-- Decimal digit character. -/
def digitChar (n : Nat) : Char := Char.ofNat (48 + n)

/-- Decimal digits of a natural number, most significant first.  The first
argument is fuel, always sufficient because `n / 10 < n` for `n ≥ 10`. -/
def natCharsAux : Nat → Nat → List Char
  | 0, n => [digitChar (n % 10)]
  | fuel + 1, n => if n < 10 then [digitChar n]
                   else natCharsAux fuel (n / 10) ++ [digitChar (n % 10)]

def natChars (n : Nat) : List Char := natCharsAux n n

/-- Zero-padded decimal rendering, as `datetime.isoformat` produces for
each field. -/
def padStr (width n : Nat) : String :=
  String.mk (List.replicate (width - (natChars n).length) '0' ++ natChars n)

/-- A `datetime.datetime` value as far as `isoformat` needs it. -/
structure PyDateTime where
  year : Nat
  month : Nat
  day : Nat
  hour : Nat
  minute : Nat
  second : Nat
  microsecond : Nat
deriving Repr, DecidableEq

/-- `datetime.isoformat(' ', timespec='milliseconds')`: date and time
separated by a space, fraction truncated to milliseconds. -/
def isoformatSpaceMilliseconds (dt : PyDateTime) : String :=
  padStr 4 dt.year ++ "-" ++ padStr 2 dt.month ++ "-" ++ padStr 2 dt.day ++ " " ++
    padStr 2 dt.hour ++ ":" ++ padStr 2 dt.minute ++ ":" ++ padStr 2 dt.second ++
    "." ++ padStr 3 (dt.microsecond / 1000)

/-- Python's `str.replace('-', '')`: for a one-character pattern and an
empty replacement this removes every occurrence of the character. -/
def removeDashes (s : String) : String :=
  String.mk (s.data.filter (fun c => c ≠ '-'))

/-- A log/generic message object as `_message_attributes` reads it. -/
structure Message where
  timestamp : PyDateTime
  message : String
  level : String
  html : Bool
deriving Repr, DecidableEq

/-- `ListenerV2Facade._message_attributes`: the attribute mapping passed to
v2 `log_message`/`message` hooks. -/
def messageAttributes (msg : Message) : List (String × String) :=
  [("timestamp", removeDashes (isoformatSpaceMilliseconds msg.timestamp)),
   ("message", msg.message),
   ("level", msg.level),
   ("html", if msg.html then "yes" else "no")]

/-! ## Supporting lemmas -/

theorem ListenerMethod.call_none (lm : ListenerMethod) (hm : lm.method = none)
    (args : List Arg) (called : Bool) : lm.call args called = (called, RunOut.empty) := by
  simp [ListenerMethod.call, hm]

theorem getMethod_listener_name (f : ListenerFacade) (e : String) :
    (f.getMethod e).listener_name = f.name := by
  rw [ListenerFacade.getMethod]
  cases h : (getMethodNames f.library e).findSome? (getattrOpt f.listener) <;> simp

/-- A present resolved method is invoked exactly once per guarded call,
with the arguments unchanged; nothing its body does adds further raw
invocations. -/
theorem facade_trace_once (f : ListenerFacade) (e : String) (args : List Arg)
    (m : RawMethod) (hm : (f.getMethod e).method = some m) :
    ((f.getMethod e).call args false).2.trace = [⟨m.name, f.name, args⟩] := by
  rw [ListenerMethod.call_false (f.getMethod e) args m hm, getMethod_listener_name]
  cases h : directExc m.body with
  | none => simp
  | some k => cases k <;> simp

theorem call_trace_cases (f : ListenerFacade) (e : String) (args : List Arg) :
    ((f.getMethod e).call args false).2.trace =
      match (f.getMethod e).method with
      | some m => [⟨m.name, f.name, args⟩]
      | none => ([] : List CallRecord) := by
  cases hm : (f.getMethod e).method with
  | none => rw [(f.getMethod e).call_none hm]; simp [RunOut.empty]
  | some m => rw [facade_trace_once f e args m hm]

/-- A fan-out loop over facades none of whose resolved methods raises the
timeout exception: the flag ends clear, no exception escapes, and the trace
is the concatenation of the individual guarded calls' traces, in
registration order. -/
theorem dispatch_clean (ls : List ListenerFacade) (e : String) (args : List Arg)
    (h : ∀ f ∈ ls, noDirectTimeout (f.getMethod e) = true) :
    (Listeners.dispatch ls e args false).1 = false ∧
    (Listeners.dispatch ls e args false).2.exc = none ∧
    (Listeners.dispatch ls e args false).2.trace =
      (ls.map (fun f => ((f.getMethod e).call args false).2.trace)).flatten := by
  induction ls with
  | nil => simp [Listeners.dispatch, RunOut.empty]
  | cons f rest ih =>
      have hexc := ListenerMethod.call_exc_of_noDirectTimeout (f.getMethod e) args
        (h f (by simp))
      have hflag := ListenerMethod.call_flag_clear (f.getMethod e) args
      obtain ⟨ih1, ih2, ih3⟩ := ih (fun g hg => h g (by simp [hg]))
      rcases hc : (f.getMethod e).call args false with ⟨c1, r1⟩
      have hc1 : c1 = false := by rw [hc] at hflag; exact hflag
      subst hc1
      have hr1 : r1.exc = none := by rw [hc] at hexc; exact hexc
      rcases hd : Listeners.dispatch rest e args false with ⟨c2, r2⟩
      have hc2 : c2 = false := by rw [hd] at ih1; exact ih1
      subst hc2
      have ih2' : r2.exc = none := by rw [hd] at ih2; exact ih2
      have ih3' : r2.trace =
          (List.map (fun g => ((g.getMethod e).call args false).2.trace) rest).flatten := by
        rw [hd] at ih3; exact ih3
      simp [Listeners.dispatch, hc, hr1, hd, ih2', ih3']

theorem flatten_traces_filterMap (ls : List ListenerFacade) (e : String)
    (args : List Arg) :
    (ls.map (fun f => ((f.getMethod e).call args false).2.trace)).flatten =
      ls.filterMap (fun f => ((f.getMethod e).method).map
        (fun m => (⟨m.name, f.name, args⟩ : CallRecord))) := by
  induction ls with
  | nil => simp
  | cons f rest ih =>
      rw [List.map_cons, List.flatten_cons, ih, List.filterMap_cons]
      cases hm : (f.getMethod e).method with
      | none => rw [(f.getMethod e).call_none hm]; simp [RunOut.empty]
      | some m => rw [facade_trace_once f e args m hm]; simp

/-! ## Claims -/

/-- C1: While a Guarded Call body executes, the process-wide reentrancy
flag is set, so invoking any Guarded Call during that time (the same or a
different instance) returns immediately with no effect — no raw callable
is invoked, nothing is logged, no exception is raised, and the flag is
left untouched; the flag is cleared on every exit path of the body (the
trace of a call from a clear flag is exactly the one outer invocation, so
nested guarded-call bodies never execute and at most one body runs at any
instant); after the outer call returns the flag is clear again, so
invocation resumes normally. -/
theorem C1_reentrancy_guard (lm : ListenerMethod) (args : List Arg) :
    lm.call args true = (true, RunOut.empty) ∧
    (lm.call args false).1 = false ∧
    (∀ m, lm.method = some m →
      (lm.call args false).2.trace = [⟨m.name, lm.listener_name, args⟩]) := by
  refine ⟨?_, lm.call_flag_clear args, ?_⟩
  · cases hm : lm.method with
    | none => simp [ListenerMethod.call, hm]
    | some m => simp [ListenerMethod.call, hm, guardedRun]
  · intro m hm
    rw [lm.call_false args m hm]
    cases h : directExc m.body with
    | none => simp
    | some k => cases k <;> simp

theorem C1_witness :
    ((⟨some ⟨"start_suite", Body.callSome "log_message" Body.done "Nested" [⟨9⟩]
        Body.done⟩, "Ex"⟩ : ListenerMethod).call [⟨1⟩, ⟨2⟩] false).2.trace =
      [⟨"start_suite", "Ex", [⟨1⟩, ⟨2⟩]⟩] :=
  (C1_reentrancy_guard ⟨some ⟨"start_suite", Body.callSome "log_message" Body.done
    "Nested" [⟨9⟩] Body.done⟩, "Ex"⟩ [⟨1⟩, ⟨2⟩]).2.2
    ⟨"start_suite", Body.callSome "log_message" Body.done "Nested" [⟨9⟩] Body.done⟩ rfl

/-- C2: A guarded invocation raises iff the wrapped callable raises the
designated timeout exception, which is re-raised unmodified with the flag
already cleared; any other exception is caught and logged with a message
naming the failing method and the listener, and the invocation returns
normally; consequently a fan-out over a bus in which listeners raise only
non-timeout exceptions still delivers the event to every remaining
listener. -/
theorem C2_exception_policy (lm : ListenerMethod) (args : List Arg) :
    ((lm.call args false).2.exc ≠ none ↔
        (∃ m, lm.method = some m ∧ directExc m.body = some ExcKind.timeout)) ∧
    (∀ m, lm.method = some m → directExc m.body = some ExcKind.timeout →
        lm.call args false =
          (false, ⟨[⟨m.name, lm.listener_name, args⟩], [], some ExcKind.timeout⟩)) ∧
    (∀ m msg, lm.method = some m → directExc m.body = some (ExcKind.other msg) →
        lm.call args false =
          (false, ⟨[⟨m.name, lm.listener_name, args⟩],
                   [errMsg m.name lm.listener_name msg], none⟩)) ∧
    (∀ (ls : List ListenerFacade) (e : String),
        (∀ f ∈ ls, noDirectTimeout (f.getMethod e) = true) →
        (Listeners.dispatch ls e args false).2.trace =
          (ls.map (fun f => ((f.getMethod e).call args false).2.trace)).flatten) := by
  refine ⟨?_, ?_, ?_, ?_⟩
  · constructor
    · intro hne
      cases hm : lm.method with
      | none => rw [lm.call_none hm] at hne; simp [RunOut.empty] at hne
      | some m =>
          refine ⟨m, rfl, ?_⟩
          rw [lm.call_false args m hm] at hne
          cases hd : directExc m.body with
          | none => rw [hd] at hne; simp at hne
          | some k => cases k with
            | timeout => rfl
            | other msg => rw [hd] at hne; simp at hne
    · rintro ⟨m, hm, hd⟩
      rw [lm.call_false args m hm, hd]
      simp
  · intro m hm hd
    rw [lm.call_false args m hm, hd]
  · intro m msg hm hd
    rw [lm.call_false args m hm, hd]
  · intro ls e h
    exact (dispatch_clean ls e args h).2.2

theorem C2_witness :
    ((⟨some ⟨"end_test", Body.raiseExc ExcKind.timeout⟩, "Lst"⟩ : ListenerMethod).call
        [⟨3⟩] false) =
      (false, ⟨[⟨"end_test", "Lst", [⟨3⟩]⟩], [], some ExcKind.timeout⟩) :=
  (C2_exception_policy ⟨some ⟨"end_test", Body.raiseExc ExcKind.timeout⟩, "Lst"⟩
    [⟨3⟩]).2.1 ⟨"end_test", Body.raiseExc ExcKind.timeout⟩ rfl rfl

/-- C3: Dispatching an event over a bus of N facades whose resolved methods
do not raise the timeout exception invokes each facade's same-named
resolved method exactly once, in registration order, with the arguments
passed through unchanged (facades not implementing the method contribute
no invocation); the flag ends clear; with N = 0 the dispatch is a pure
no-op; and the bus is truthy iff at least one facade is registered. -/
theorem C3_dispatch_bus (ls : List ListenerFacade) (e : String) (args : List Arg)
    (h : ∀ f ∈ ls, noDirectTimeout (f.getMethod e) = true) :
    (Listeners.dispatch ls e args false).1 = false ∧
    (Listeners.dispatch ls e args false).2.trace =
      ls.filterMap (fun f => ((f.getMethod e).method).map
        (fun m => (⟨m.name, f.name, args⟩ : CallRecord))) ∧
    (∀ (e2 : String) (args2 : List Arg) (c : Bool),
        Listeners.dispatch [] e2 args2 c = (c, RunOut.empty)) ∧
    (Listeners.toBool ls = true ↔ ls ≠ []) := by
  obtain ⟨h1, _, h3⟩ := dispatch_clean ls e args h
  refine ⟨h1, ?_, ?_, ?_⟩
  · rw [h3, flatten_traces_filterMap]
  · intro e2 args2 c
    rw [Listeners.dispatch]
  · rw [Listeners.toBool]
    cases ls <;> simp

theorem C3_witness :
    (Listeners.dispatch
        [⟨FacadeKind.v3, [("start_suite", ⟨"start_suite", Body.done⟩)], "F1", none⟩,
         ⟨FacadeKind.v3, [], "F2", none⟩,
         ⟨FacadeKind.v3, [("start_suite", ⟨"start_suite", Body.done⟩)], "F3", none⟩]
        "start_suite" [⟨1⟩, ⟨2⟩] false).2.trace =
      [⟨"start_suite", "F1", [⟨1⟩, ⟨2⟩]⟩, ⟨"start_suite", "F3", [⟨1⟩, ⟨2⟩]⟩] := by
  rw [(C3_dispatch_bus
    [⟨FacadeKind.v3, [("start_suite", ⟨"start_suite", Body.done⟩)], "F1", none⟩,
     ⟨FacadeKind.v3, [], "F2", none⟩,
     ⟨FacadeKind.v3, [("start_suite", ⟨"start_suite", Body.done⟩)], "F3", none⟩]
    "start_suite" [⟨1⟩, ⟨2⟩] (by decide)).2.1]
  decide

/-- C4: Resolution tries the exact snake-case name first, then (when the
name contains an underscore) its camel-case spelling, and appends the
underscore-prefixed variants of both only when the facade is bound to an
owning library, after both unprefixed forms; the first attribute found
wins, so snake-case beats camel-case and unprefixed beats prefixed; with
no candidate present the resulting Guarded Call is falsy and calling it is
a no-op, and resolution itself is total (never an error). -/
theorem C4_method_resolution (f : ListenerFacade) (name : String) :
    (containsChar '_' name = false →
        getMethodNames f.library name =
          if f.library.isSome then [name, "_" ++ name] else [name]) ∧
    (containsChar '_' name = true →
        getMethodNames f.library name =
          if f.library.isSome then
            [name, toCamelCase name, "_" ++ name, "_" ++ toCamelCase name]
          else [name, toCamelCase name]) ∧
    (∀ m, getattrOpt f.listener name = some m →
        (f.getMethod name).method = some m) ∧
    (∀ m, getattrOpt f.listener name = none → containsChar '_' name = true →
        getattrOpt f.listener (toCamelCase name) = some m →
        (f.getMethod name).method = some m) ∧
    ((∀ n ∈ getMethodNames f.library name, getattrOpt f.listener n = none) →
        (f.getMethod name).method = none ∧ (f.getMethod name).toBool = false ∧
        ∀ (args : List Arg) (c : Bool),
          (f.getMethod name).call args c = (c, RunOut.empty)) := by
  refine ⟨?_, ?_, ?_, ?_, ?_⟩
  · intro hc
    cases hl : f.library.isSome <;> simp [getMethodNames, hc, hl]
  · intro hc
    cases hl : f.library.isSome <;> simp [getMethodNames, hc, hl]
  · intro m hm
    rw [ListenerFacade.getMethod, getMethodNames]
    cases hc : containsChar '_' name <;> cases hl : f.library.isSome <;>
      simp [hc, hl, List.findSome?_cons, hm]
  · intro m h1 hc h2
    rw [ListenerFacade.getMethod, getMethodNames]
    cases hl : f.library.isSome <;>
      simp [hc, hl, List.findSome?_cons, h1, h2]
  · intro h
    have hn : (getMethodNames f.library name).findSome? (getattrOpt f.listener) = none :=
      List.findSome?_eq_none_iff.mpr h
    have hm : (f.getMethod name).method = none := by
      rw [ListenerFacade.getMethod, hn]
    exact ⟨hm, by simp [ListenerMethod.toBool, hm],
           fun args c => (f.getMethod name).call_none hm args c⟩

theorem C4_witness :
    ((⟨FacadeKind.v3, [("startSuite", ⟨"startSuite", Body.done⟩),
        ("start_suite", ⟨"start_suite", Body.done⟩)], "F", some 1⟩ :
          ListenerFacade).getMethod "start_suite").method =
      some ⟨"start_suite", Body.done⟩ :=
  (C4_method_resolution ⟨FacadeKind.v3, [("startSuite", ⟨"startSuite", Body.done⟩),
      ("start_suite", ⟨"start_suite", Body.done⟩)], "F", some 1⟩
    "start_suite").2.2.1 ⟨"start_suite", Body.done⟩ (by decide)

/-- Every specialized-pair public method of the v3 facade satisfies the
dispatch-or-forward contract. -/
theorem forwardsToGeneric_mk (specName genName : String) :
    forwardsToGeneric specName genName (fun f data impl result called =>
      if (f.getMethod specName).toBool then
        (f.getMethod specName).call [data, impl, result] called
      else (f.getMethod genName).call [data, result] called) := by
  intro f data impl result called
  refine ⟨?_, ?_, ?_⟩
  · intro m hm
    simp [ListenerMethod.toBool, hm]
  · intro hm
    simp [ListenerMethod.toBool, hm]
  · intro hm hc g hg
    subst hc
    have hb : (f.getMethod specName).toBool = false := by
      simp [ListenerMethod.toBool, hm]
    simp only [hb, Bool.false_eq_true, if_false]
    exact facade_trace_once f genName [data, result] g hg

/-- C5: For each specialized keyword pair of the v3 facade (start/end of
user, library and invalid keyword), a listener implementing the
specialized hook gets exactly that hook invoked with
`(data, implementation, result)`; a listener without it has the call
forwarded to the generic `start_keyword`/`end_keyword` Guarded Call with
the same `data` and `result`, so a listener implementing the generic hook
still receives exactly one notification for the keyword event. -/
theorem C5_specialized_fallback :
    forwardsToGeneric "start_user_keyword" "start_keyword"
      ListenerV3Facade.startUserKeyword ∧
    forwardsToGeneric "end_user_keyword" "end_keyword"
      ListenerV3Facade.endUserKeyword ∧
    forwardsToGeneric "start_library_keyword" "start_keyword"
      ListenerV3Facade.startLibraryKeyword ∧
    forwardsToGeneric "end_library_keyword" "end_keyword"
      ListenerV3Facade.endLibraryKeyword ∧
    forwardsToGeneric "start_invalid_keyword" "start_keyword"
      ListenerV3Facade.startInvalidKeyword ∧
    forwardsToGeneric "end_invalid_keyword" "end_keyword"
      ListenerV3Facade.endInvalidKeyword :=
  ⟨forwardsToGeneric_mk _ _, forwardsToGeneric_mk _ _, forwardsToGeneric_mk _ _,
   forwardsToGeneric_mk _ _, forwardsToGeneric_mk _ _, forwardsToGeneric_mk _ _⟩

theorem C5_witness :
    (ListenerV3Facade.startUserKeyword
        (⟨FacadeKind.v3, [("start_keyword", ⟨"start_keyword", Body.done⟩)], "G", none⟩ :
          ListenerFacade) ⟨1⟩ ⟨2⟩ ⟨3⟩ false).2.trace =
      [⟨"start_keyword", "G", [⟨1⟩, ⟨3⟩]⟩] :=
  (C5_specialized_fallback.1
    ⟨FacadeKind.v3, [("start_keyword", ⟨"start_keyword", Body.done⟩)], "G", none⟩
    ⟨1⟩ ⟨2⟩ ⟨3⟩ false).2.2 rfl rfl ⟨"start_keyword", Body.done⟩ rfl

/-- C6: Facade construction reads the declared API version attribute with
default 3; a value whose `int()` coercion yields 2 or 3 is accepted and
selects the legacy respectively current-generation facade, every other
value (a different integer, or a value `int()` cannot coerce) raises a
`DataError` instead of producing a facade. -/
theorem C6_api_version (v : PyValue) (k : Int) :
    getVersion none = Except.ok 3 ∧
    (getVersion (some v) = Except.ok k → (k = 2 ∨ k = 3) ∧ pyToInt v = some k) ∧
    (pyToInt v = none → getVersion (some v) = Except.error (unsupportedMsg v)) ∧
    (pyToInt v = some k → k ≠ 2 → k ≠ 3 →
        getVersion (some v) = Except.error (unsupportedMsg (PyValue.int k))) ∧
    (∀ (name : String) (raw : RawListener) (lib : Option Nat) (ver : Option PyValue),
        getVersion ver = Except.ok 2 →
        importOne (ListenerSource.good name raw ver) lib =
          Except.ok ⟨FacadeKind.v2, raw, name, lib⟩) ∧
    (∀ (name : String) (raw : RawListener) (lib : Option Nat) (ver : Option PyValue),
        getVersion ver = Except.ok 3 →
        importOne (ListenerSource.good name raw ver) lib =
          Except.ok ⟨FacadeKind.v3, raw, name, lib⟩) ∧
    (∀ (name : String) (raw : RawListener) (lib : Option Nat) (ver : Option PyValue)
        (m : String), getVersion ver = Except.error m →
        importOne (ListenerSource.good name raw ver) lib = Except.error m) := by
  refine ⟨rfl, ?_, ?_, ?_, ?_, ?_, ?_⟩
  · cases hp : pyToInt v with
    | none =>
        intro h
        simp [getVersion, Option.getD_some, hp] at h
    | some n =>
        intro h
        simp only [getVersion, Option.getD_some, hp] at h
        by_cases hn : n = 2 ∨ n = 3
        · rw [if_pos hn] at h
          have hk := Except.ok.inj h
          subst hk
          exact ⟨hn, rfl⟩
        · rw [if_neg hn] at h
          cases h
  · intro hp
    simp [getVersion, Option.getD_some, hp]
  · intro hp h2 h3
    simp [getVersion, Option.getD_some, hp, h2, h3]
  · intro name raw lib ver h
    simp [importOne, h]
  · intro name raw lib ver h
    simp [importOne, h]
  · intro name raw lib ver m h
    simp [importOne, h]

theorem C6_witness :
    getVersion (some (PyValue.int 4)) =
      Except.error (unsupportedMsg (PyValue.int 4)) :=
  (C6_api_version (PyValue.int 4) 4).2.2.2.1 rfl (by decide) (by decide)

theorem importListeners_none (srcs : List ListenerSource) :
    importListeners srcs none =
      Except.ok (srcs.filterMap (fun s => (importOne s none).toOption),
                 srcs.filterMap (fun s => importErrLog s none)) := by
  induction srcs with
  | nil => simp [importListeners]
  | cons s rest ih =>
      cases hio : importOne s none with
      | error e =>
          simp [importListeners, hio, ih, importErrLog, Except.toOption]
      | ok f =>
          simp [importListeners, hio, ih, importErrLog, Except.toOption]

theorem importListeners_lib_ok (srcs : List ListenerSource) (lib : Nat)
    (h : ∀ s ∈ srcs, ∃ f, importOne s (some lib) = Except.ok f) :
    importListeners srcs (some lib) =
      Except.ok (srcs.filterMap (fun s => (importOne s (some lib)).toOption), []) := by
  induction srcs with
  | nil => simp [importListeners]
  | cons s rest ih =>
      obtain ⟨f, hf⟩ := h s (by simp)
      have ih2 := ih (fun t ht => h t (by simp [ht]))
      simp [importListeners, hf, ih2, Except.toOption]

theorem importListeners_lib_err (srcs : List ListenerSource) (lib : Nat)
    (s : ListenerSource) (e : String) (hs : s ∈ srcs)
    (he : importOne s (some lib) = Except.error e) :
    ∃ m, importListeners srcs (some lib) = Except.error m := by
  induction srcs with
  | nil => cases hs
  | cons t rest ih =>
      cases hio : importOne t (some lib) with
      | error e2 =>
          exact ⟨takingMsg (sourceName t) e2, by simp [importListeners, hio]⟩
      | ok f =>
          rcases List.mem_cons.mp hs with h1 | h1
          · subst h1; rw [hio] at he; cases he
          · obtain ⟨m, hm⟩ := ih h1
            exact ⟨m, by simp [importListeners, hio, hm]⟩

/-- C7: Importing a sequence of listeners with no owning library catches
each import/version failure, logs the wrapped message and omits that
listener while the remaining listeners are still imported in order; with
an owning library the same failure propagates as a `DataError`, making it
fatal to the library's import. -/
theorem C7_import_failures (srcs : List ListenerSource) :
    importListeners srcs none =
      Except.ok (srcs.filterMap (fun s => (importOne s none).toOption),
                 srcs.filterMap (fun s => importErrLog s none)) ∧
    (∀ lib, (∀ s ∈ srcs, ∃ f, importOne s (some lib) = Except.ok f) →
        importListeners srcs (some lib) =
          Except.ok (srcs.filterMap (fun s => (importOne s (some lib)).toOption), [])) ∧
    (∀ lib s e, s ∈ srcs → importOne s (some lib) = Except.error e →
        ∃ m, importListeners srcs (some lib) = Except.error m) :=
  ⟨importListeners_none srcs, fun lib h => importListeners_lib_ok srcs lib h,
   fun lib s e hs he => importListeners_lib_err srcs lib s e hs he⟩

theorem C7_witness :
    ∃ m, importListeners
        [ListenerSource.good "A" [] none, ListenerSource.bad "B" "boom"]
        (some 5) = Except.error m :=
  (C7_import_failures
    [ListenerSource.good "A" [] none, ListenerSource.bad "B" "boom"]).2.2
    5 (ListenerSource.bad "B" "boom") "boom" (by decide) rfl

theorem unregLoop_noclose (frame : List ListenerFacade) (library : Nat) :
    unregLoop frame library false false =
      (frame.filter (fun f => f.library ≠ some library), false, RunOut.empty) := by
  induction frame with
  | nil => simp [unregLoop]
  | cons f rest ih =>
      by_cases hfl : f.library = some library
      · simp [unregLoop, hfl, ih]
      · simp [unregLoop, hfl, ih]

theorem unregLoop_close (frame : List ListenerFacade) (library : Nat)
    (h : ∀ f ∈ frame, f.library = some library →
        noDirectTimeout (f.getMethod "close") = true) :
    (unregLoop frame library true false).1 =
      frame.filter (fun f => f.library ≠ some library) ∧
    (unregLoop frame library true false).2.1 = false ∧
    (unregLoop frame library true false).2.2.exc = none ∧
    (unregLoop frame library true false).2.2.trace =
      ((frame.filter (fun f => f.library = some library)).map
        (fun f => (f.close false).2.trace)).flatten := by
  induction frame with
  | nil => simp [unregLoop, RunOut.empty]
  | cons f rest ih =>
      obtain ⟨ih1, ih2, ih3, ih4⟩ := ih (fun g hg hl => h g (by simp [hg]) hl)
      rcases hrec : unregLoop rest library true false with ⟨rem, c2, r2⟩
      have hc2 : c2 = false := by rw [hrec] at ih2; exact ih2
      subst hc2
      have hrem : rem = rest.filter (fun g => g.library ≠ some library) := by
        rw [hrec] at ih1; exact ih1
      have hr2e : r2.exc = none := by rw [hrec] at ih3; exact ih3
      have hr2t : r2.trace = ((rest.filter (fun g => g.library = some library)).map
          (fun g => (g.close false).2.trace)).flatten := by
        rw [hrec] at ih4; exact ih4
      by_cases hfl : f.library = some library
      · have hnt := h f (by simp) hfl
        have hexc := ListenerMethod.call_exc_of_noDirectTimeout (f.getMethod "close") [] hnt
        have hflag := ListenerMethod.call_flag_clear (f.getMethod "close") []
        rcases hc : (f.getMethod "close").call [] false with ⟨c1, r1⟩
        have hc1 : c1 = false := by rw [hc] at hflag; exact hflag
        subst hc1
        have hr1 : r1.exc = none := by rw [hc] at hexc; exact hexc
        simp [unregLoop, hfl, ListenerFacade.close, hc, hr1, hrec, hrem, hr2e, hr2t]
      · simp [unregLoop, hfl, hrec, hrem, hr2e, hr2t]

/-- C8: On a stack with at least one frame, `unregister` removes from the
top frame exactly the facades whose owning library is identical to the
given one, preserving the relative order of the survivors and leaving
every other frame unchanged; the close hook of each removed facade is
invoked exactly when the close flag is set (in frame order), and with the
flag unset no listener code runs at all. -/
theorem C8_unregister (top : List ListenerFacade)
    (others : List (List ListenerFacade)) (library : Nat) (close : Bool)
    (h : ∀ f ∈ top, f.library = some library →
        noDirectTimeout (f.getMethod "close") = true) :
    ∃ c r, LibraryListeners.unregister (top :: others) library close false =
        some ((top.filter (fun f => f.library ≠ some library)) :: others, c, r) ∧
      c = false ∧ r.exc = none ∧
      (close = false → r = RunOut.empty) ∧
      (close = true → r.trace =
        ((top.filter (fun f => f.library = some library)).map
          (fun f => (f.close false).2.trace)).flatten) := by
  cases close with
  | false =>
      refine ⟨false, RunOut.empty, ?_, rfl, rfl, ?_, ?_⟩
      · rw [LibraryListeners.unregister, unregLoop_noclose]
        simp [RunOut.empty]
      · intro _
        rfl
      · intro hcl
        exact Bool.noConfusion hcl
  | true =>
      obtain ⟨h1, h2, h3, h4⟩ := unregLoop_close top library h
      rcases hu : unregLoop top library true false with ⟨rem, c, r⟩
      have hc : c = false := by rw [hu] at h2; exact h2
      have hrem : rem = top.filter (fun f => f.library ≠ some library) := by
        rw [hu] at h1; exact h1
      have hre : r.exc = none := by rw [hu] at h3; exact h3
      have hrt : r.trace = ((top.filter (fun f => f.library = some library)).map
          (fun f => (f.close false).2.trace)).flatten := by
        rw [hu] at h4; exact h4
      refine ⟨c, r, ?_, hc, hre, ?_, ?_⟩
      · rw [LibraryListeners.unregister, hu]
        simp [hre, hrem]
      · intro hcl
        exact Bool.noConfusion hcl
      · intro _
        exact hrt

theorem C8_witness :
    ∃ c r, LibraryListeners.unregister
        [[⟨FacadeKind.v3, [("close", ⟨"close", Body.done⟩)], "A", some 1⟩,
          ⟨FacadeKind.v2, [], "B", some 2⟩],
         [⟨FacadeKind.v3, [], "C", some 3⟩]] 1 true false =
      some ([[⟨FacadeKind.v2, [], "B", some 2⟩],
             [⟨FacadeKind.v3, [], "C", some 3⟩]], c, r) := by
  obtain ⟨c, r, h1, _⟩ := C8_unregister
    [⟨FacadeKind.v3, [("close", ⟨"close", Body.done⟩)], "A", some 1⟩,
     ⟨FacadeKind.v2, [], "B", some 2⟩]
    [[⟨FacadeKind.v3, [], "C", some 3⟩]] 1 true (by decide)
  have hf : ([⟨FacadeKind.v3, [("close", ⟨"close", Body.done⟩)], "A", some 1⟩,
      ⟨FacadeKind.v2, [], "B", some 2⟩] : List ListenerFacade).filter
      (fun f => f.library ≠ some 1) = [⟨FacadeKind.v2, [], "B", some 2⟩] := by decide
  rw [hf] at h1
  exact ⟨c, r, h1⟩

theorem digitChar_ne_dash (n : Nat) (h : n < 10) : digitChar n ≠ '-' := by
  interval_cases n <;> decide

theorem natCharsAux_ne_dash (fuel n : Nat) :
    ∀ c ∈ natCharsAux fuel n, c ≠ '-' := by
  induction fuel generalizing n with
  | zero =>
      intro c hc
      simp only [natCharsAux, List.mem_singleton] at hc
      subst hc
      exact digitChar_ne_dash _ (Nat.mod_lt _ (by norm_num))
  | succ fuel ih =>
      intro c hc
      rw [natCharsAux] at hc
      by_cases hn : n < 10
      · rw [if_pos hn] at hc
        simp only [List.mem_singleton] at hc
        subst hc
        exact digitChar_ne_dash _ hn
      · rw [if_neg hn] at hc
        rcases List.mem_append.mp hc with h1 | h1
        · exact ih (n / 10) c h1
        · simp only [List.mem_singleton] at h1
          subst h1
          exact digitChar_ne_dash _ (Nat.mod_lt _ (by norm_num))

theorem padStr_ne_dash (w n : Nat) : ∀ c ∈ (padStr w n).data, c ≠ '-' := by
  intro c hc
  rw [padStr] at hc
  rcases List.mem_append.mp hc with h1 | h1
  · have := List.eq_of_mem_replicate h1
    subst this
    decide
  · exact natCharsAux_ne_dash n n c h1

theorem filter_dash_padStr (w n : Nat) :
    (padStr w n).data.filter (fun c => c ≠ '-') = (padStr w n).data :=
  List.filter_eq_self.mpr (fun a ha => decide_eq_true (padStr_ne_dash w n a ha))

/-- The timestamp the v2 facade reports: the isoformat rendering with every
date dash removed. -/
theorem removeDashes_isoformat (dt : PyDateTime) :
    removeDashes (isoformatSpaceMilliseconds dt) =
      padStr 4 dt.year ++ padStr 2 dt.month ++ padStr 2 dt.day ++ " " ++
      padStr 2 dt.hour ++ ":" ++ padStr 2 dt.minute ++ ":" ++ padStr 2 dt.second ++
      "." ++ padStr 3 (dt.microsecond / 1000) := by
  apply String.ext
  have hdash : ("-" : String).data.filter (fun c => c ≠ '-') = [] := by decide
  have hsp : (" " : String).data.filter (fun c => c ≠ '-') = (" " : String).data := by
    decide
  have hco : (":" : String).data.filter (fun c => c ≠ '-') = (":" : String).data := by
    decide
  have hdot : ("." : String).data.filter (fun c => c ≠ '-') = ("." : String).data := by
    decide
  simp only [removeDashes, isoformatSpaceMilliseconds, String.data_append,
    List.filter_append, filter_dash_padStr, hdash, hsp, hco, hdot,
    List.append_nil, List.nil_append]

/-- C9: The attribute mapping the legacy facade passes for a log/generic
message event has exactly the keys timestamp, message, level and html;
the timestamp is the message time at millisecond precision with the date
and time separated by a space and no dashes in the date, message and
level pass through unchanged, and html is literally "yes" or "no". -/
theorem C9_message_attributes (msg : Message) :
    messageAttributes msg =
      [("timestamp", padStr 4 msg.timestamp.year ++ padStr 2 msg.timestamp.month ++
          padStr 2 msg.timestamp.day ++ " " ++ padStr 2 msg.timestamp.hour ++ ":" ++
          padStr 2 msg.timestamp.minute ++ ":" ++ padStr 2 msg.timestamp.second ++
          "." ++ padStr 3 (msg.timestamp.microsecond / 1000)),
       ("message", msg.message),
       ("level", msg.level),
       ("html", if msg.html then "yes" else "no")] ∧
    (messageAttributes msg).map Prod.fst = ["timestamp", "message", "level", "html"] := by
  refine ⟨?_, by simp [messageAttributes]⟩
  rw [messageAttributes, removeDashes_isoformat]

/-- C10: With no pushed scope frame the scoped stack's active-listener
query returns the empty sequence rather than failing, dispatching any
event through it is a pure no-op that invokes no listener and raises
nothing, and the stack reports itself falsy. -/
theorem C10_empty_stack (e : String) (args : List Arg) (called : Bool) :
    LibraryListeners.listeners ([] : List (List ListenerFacade)) = [] ∧
    Listeners.dispatch
      (LibraryListeners.listeners ([] : List (List ListenerFacade))) e args called =
      (called, RunOut.empty) ∧
    Listeners.toBool
      (LibraryListeners.listeners ([] : List (List ListenerFacade))) = false := by
  refine ⟨rfl, ?_, rfl⟩
  rw [LibraryListeners.listeners, Listeners.dispatch]
